import Mathlib

/-!
# Reflex Master PRO — shallow embedding

A shallow Lean embedding of `ReflexMasterPro.ino`, an Arduino reflex-training
game implemented as a polling state machine over `gameState`.  Pure state
updates are modelled as functions on a `Session` record; one call of `loop()`
(respectively one poll iteration of the blocking delay loop inside
`runEnGarde`) is one `tick` on an explicit `Input` snapshot.  Hardware side
effects that carry no state (LCD writes, LED levels, tones) are modelled as
event traces where a claim is about their ordering.
-/

namespace ReflexMaster

/-- The `gameState` codes 0..5 of the sketch
(0 = Menu, 1 = Preparation "En Garde", 2 = Action, 3 = Round Result,
4 = Game Over, 5 = High Score / Hall of Fame). -/
inductive GameState where
  | menu
  | enGarde
  | action
  | result
  | gameOver
  | hallOfFame
  deriving DecidableEq, Repr

/-- The global game variables of the sketch (lines 40-58).
`int` variables are modelled as `Int`, `long` as `Int`, `unsigned long`
timestamps as `Nat` (millis is monotone within a session; no wraparound is
reached in practice).  Pin and display bookkeeping carries no game state and
is omitted. -/
structure Session where
  totalRounds : Int
  gameState : GameState
  menuOption : Int
  lastMenuOption : Int
  currentRound : Int
  startTime : Nat
  reactionTime : Nat
  roundScore : Int
  totalGameScore : Int
  highScore : Int
  currentTarget : Nat
  deriving DecidableEq, Repr

/-- Boot values of the global variables (lines 40-58). -/
def initialSession : Session :=
  { totalRounds := 10
    gameState := GameState.menu
    menuOption := 0
    lastMenuOption := -1
    currentRound := 1
    startTime := 0
    reactionTime := 0
    roundScore := 0
    totalGameScore := 0
    highScore := 0
    currentTarget := 0 }

/-- One input snapshot seen by a tick: the three target buttons
(`btnPins`, pressed = electrically LOW), the joystick switch, the two
joystick axes, whether the 200 ms navigation debounce has elapsed
(`millis() - lastNavTime > 200`), whether the random En-Garde delay has
elapsed (`millis() - delayStart >= randomDelay`), the seed consumed by
`random(0, 3)` when the target is chosen, and the current `millis()`. -/
structure Input where
  joyY : Int
  joyX : Int
  navReady : Bool
  select : Bool
  b0 : Bool
  b1 : Bool
  b2 : Bool
  delayElapsed : Bool
  targetSeed : Nat
  now : Nat
  deriving DecidableEq, Repr

/-- An input snapshot with nothing pressed and both axes at rest. -/
def quietInput : Input :=
  { joyY := 500
    joyX := 500
    navReady := false
    select := false
    b0 := false
    b1 := false
    b2 := false
    delayElapsed := false
    targetSeed := 0
    now := 0 }

/-- Arduino `random(800, 3000)` (line 219): a value in `[800, 3000)`,
modelled over an arbitrary raw draw `r` as `800 + r % (3000 - 800)`. -/
def drawDelay (r : Nat) : Nat := 800 + r % 2200

/-- Arduino `random(0, 3)` (line 246): a value in `[0, 3)`. -/
def chooseTarget (r : Nat) : Nat := r % 3

/-- Correct-hit score from `processRoundResult` (lines 285-288):
`reactionTime > 1000` scores 0, otherwise `1000 - reactionTime`. -/
def hitScore (reactionTime : Nat) : Int :=
  if reactionTime > 1000 then 0 else 1000 - (reactionTime : Int)

/-- `processRoundResult(success)` (lines 280-320): sets `roundScore`
(`hitScore` of the stored `reactionTime` on success, otherwise the fixed
-200 penalty), accumulates it into `totalGameScore`, and advances
`gameState` to Result. -/
def processRoundResult (success : Bool) (s : Session) : Session :=
  let rs : Int := if success then hitScore s.reactionTime else -200
  { s with
    roundScore := rs
    totalGameScore := s.totalGameScore + rs
    gameState := GameState.result }

/-- One iteration `i` of the scan loop in `checkReflexes` (lines 265-276):
if button `i` reads pressed, record `reactionTime = millis() - startTime`
and run `processRoundResult(i == currentTarget)`.  The source loop has no
`break`, so the scan continues past a processed press. -/
def checkStep (pressedI : Bool) (i : Nat) (now : Nat) (s : Session) : Session :=
  if pressedI then
    processRoundResult (i == s.currentTarget) { s with reactionTime := now - s.startTime }
  else s

/-- `checkReflexes()` (lines 264-277): scan buttons 0, 1, 2 in order. -/
def checkReflexes (inp : Input) (s : Session) : Session :=
  checkStep inp.b2 2 inp.now (checkStep inp.b1 1 inp.now (checkStep inp.b0 0 inp.now s))

/-- Score contributed by a processed press of button `i` in a tick at time
`now`: `hitScore` of the measured reaction when `i` is the current target,
otherwise -200. -/
def pressScore (i : Nat) (now : Nat) (s : Session) : Int :=
  if i == s.currentTarget then hitScore (now - s.startTime) else -200

/-- `startNewGame()` (lines 174-184): reset round counter and total score,
enter the preparation state. -/
def startNewGame (s : Session) : Session :=
  { s with currentRound := 1, totalGameScore := 0, gameState := GameState.enGarde }

/-- `showHighScore()` (lines 441-451): enter the Hall-of-Fame state. -/
def showHighScore (s : Session) : Session :=
  { s with gameState := GameState.hallOfFame }

/-- `cancelGame()` (lines 454-464): back to the menu, force a redraw. -/
def cancelGame (s : Session) : Session :=
  { s with gameState := GameState.menu, lastMenuOption := -1 }

/-- One poll iteration of the En-Garde delay loop plus the go transition
(`runEnGarde`, lines 222-261).  The `while` guard is read first: once the
random delay has elapsed the target is lit (`currentTarget = random(0,3)`,
`startTime = millis()`, `gameState = 2`).  Inside the loop the three target
buttons are scanned first — any press is a false start: `totalGameScore -=
500` and the function returns with `gameState` still 1 — and only then is
the joystick switch checked for cancellation. -/
def enGardeTick (inp : Input) (s : Session) : Session :=
  if inp.delayElapsed then
    { s with
      gameState := GameState.action
      currentTarget := chooseTarget inp.targetSeed
      startTime := inp.now }
  else if inp.b0 || inp.b1 || inp.b2 then
    { s with totalGameScore := s.totalGameScore - 500 }
  else if inp.select then
    cancelGame s
  else s

/-- `totalRounds++` with the upper clamp (lines 349-351). -/
def incRounds (t : Int) : Int :=
  if t + 1 > 99 then 99 else t + 1

/-- `totalRounds--` with the lower clamp (lines 357-359). -/
def decRounds (t : Int) : Int :=
  if t - 1 < 1 then 1 else t - 1

/-- Menu move-up branch of `handleMenu` (lines 332-337). -/
def navUp (joyY : Int) (s : Session) : Session :=
  if joyY < 100 ∧ s.menuOption > 0 then { s with menuOption := s.menuOption - 1 } else s

/-- Menu move-down branch of `handleMenu` (lines 339-344). -/
def navDown (joyY : Int) (s : Session) : Session :=
  if joyY > 900 ∧ s.menuOption < 2 then { s with menuOption := s.menuOption + 1 } else s

/-- Round-count adjustment of `handleMenu` (lines 347-364): only on menu
option 1, increment on a right deflection, then decrement on a left one. -/
def adjustRounds (joyX : Int) (s : Session) : Session :=
  if s.menuOption = 1 then
    let s1 := if joyX > 900 then { s with totalRounds := incRounds s.totalRounds } else s
    if joyX < 100 then { s1 with totalRounds := decRounds s1.totalRounds } else s1
  else s

/-- The debounced navigation block of `handleMenu` (lines 330-365):
up, then down, then round adjustment, all only when 200 ms have passed
since the last accepted action. -/
def menuNav (inp : Input) (s : Session) : Session :=
  if inp.navReady then adjustRounds inp.joyX (navDown inp.joyY (navUp inp.joyY s)) else s

/-- `handleMenu()` (lines 325-382): navigation, then the joystick-switch
selection (options 0 and 1 start a game, option 2 shows the high score). -/
def handleMenu (inp : Input) (s : Session) : Session :=
  let s1 := menuNav inp s
  if inp.select then
    if s1.menuOption = 0 then startNewGame s1
    else if s1.menuOption = 1 then startNewGame s1
    else showHighScore s1
  else s1

/-- `gameOver()` (lines 467-495) with its branch made visible: the record
path (victory fanfare, "RECORDE!") is taken exactly when the finished
game's total beats the stored high score, and only then is `highScore`
overwritten. -/
def gameOverRun (s : Session) : Session × Bool :=
  let s1 := { s with gameState := GameState.gameOver }
  if s1.totalGameScore > s1.highScore then
    ({ s1 with highScore := s1.totalGameScore }, true)
  else (s1, false)

/-- `gameOver()` state effect. -/
def gameOver (s : Session) : Session := (gameOverRun s).1

/-- High-score finalization of one game, extracted from `gameOver()`. -/
def finalizeHighScore (h score : Int) : Int :=
  if score > h then score else h

/-- The Result branch of `loop()` (lines 140-154): after the pause, either
advance to the next round or finish the game. -/
def resultTick (s : Session) : Session :=
  if s.currentRound < s.totalRounds then
    { s with currentRound := s.currentRound + 1, gameState := GameState.enGarde }
  else gameOver s

/-- The GameOver / Hall-of-Fame branch of `loop()` (lines 157-168): the
joystick switch or the center target button returns to the menu. -/
def terminalTick (inp : Input) (s : Session) : Session :=
  if inp.select || inp.b1 then
    { s with gameState := GameState.menu, menuOption := 0, lastMenuOption := -1 }
  else s

/-- One step of the machine: the dispatch of `loop()` (lines 119-169) on
`gameState`. -/
def tick (inp : Input) (s : Session) : Session :=
  match s.gameState with
  | GameState.menu => handleMenu inp s
  | GameState.enGarde => enGardeTick inp s
  | GameState.action => checkReflexes inp s
  | GameState.result => resultTick s
  | GameState.gameOver => terminalTick inp s
  | GameState.hallOfFame => terminalTick inp s

/-- Run the machine over a list of input snapshots. -/
def run (inps : List Input) (s : Session) : Session :=
  inps.foldl (fun acc i => tick i acc) s

/-!
## Event traces

For the ordering claims, the side-effecting statements of a transition are
transcribed in source order as a list of events.  `lcdWrite` covers any
display call (`clear`, `setCursor`+`print`), `setState` is an assignment to
`gameState`.
-/

/-- One observable event of a transition. -/
inductive Ev where
  | setState (st : GameState)
  | lcdWrite
  | ledOn (i : Nat)
  | ledOff (i : Nat)
  | toneEv (freq dur : Nat)
  deriving DecidableEq, Repr

/-- The "LIGHT THE TARGET" tail of `runEnGarde` (lines 243-261), in source
order: `gameState = 2` first, then the LCD target text, then the LED, then
the go tone. -/
def goPhaseTrace (target : Nat) : List Ev :=
  [Ev.setState GameState.action, Ev.lcdWrite, Ev.ledOn target, Ev.toneEv 1500 150]

/-- The events of `processRoundResult` (lines 280-320) in source order:
`lcd.clear()`, the per-outcome tone and message, the score line, and only
then `gameState = 3`. -/
def processRoundResultTrace (success : Bool) (rt : Nat) : List Ev :=
  [Ev.lcdWrite] ++
    (if success then
      (if hitScore rt > 800 then [Ev.toneEv 1000 80, Ev.toneEv 2000 150]
       else [Ev.toneEv 800 100]) ++ [Ev.lcdWrite]
     else [Ev.toneEv 100 300, Ev.lcdWrite]) ++
    [Ev.lcdWrite, Ev.setState GameState.result]

/-!
## Derived definitions used by the statements
-/

/-- One menu-mode round adjustment: `true` is a right deflection
(increment), `false` a left one (decrement). -/
def applyRoundAdjust (t : Int) (a : Bool) : Int :=
  if a then incRounds t else decRounds t

/-- States in which a round is in progress or just finished; in `menu` and
`hallOfFame` the round counter is a stale leftover of the previous game. -/
def inPlay : GameState → Bool
  | GameState.menu => false
  | GameState.hallOfFame => false
  | _ => true

/-- The session invariant maintained by every tick: `totalRounds` stays in
[1, 99], `currentRound` is at least 1, and whenever the machine is in a
playing state (`enGarde`, `action`, `result`, `gameOver`) the round counter
does not exceed the configured round count. -/
def Inv (s : Session) : Prop :=
  1 ≤ s.totalRounds ∧ s.totalRounds ≤ 99 ∧ 1 ≤ s.currentRound ∧
    (inPlay s.gameState = true → s.currentRound ≤ s.totalRounds)

/-- A session waiting in the Action state with the right target lit. -/
def sampleAwait : Session :=
  { initialSession with gameState := GameState.action, currentTarget := 2 }

/-- A session inside the En-Garde delay window. -/
def sampleEnGarde : Session :=
  { initialSession with gameState := GameState.enGarde }

/-- A session that just displayed a round result. -/
def sampleResult : Session :=
  { initialSession with gameState := GameState.result }

/-- A finished game whose total beats the session high score. -/
def sampleFinished : Session :=
  { initialSession with totalGameScore := 850 }

/-- A tick in which the left and center buttons read pressed together,
100 ms after the target lit. -/
def doublePressInput : Input :=
  { quietInput with b0 := true, b1 := true, now := 100 }

/-- A false start snapshot: left button pressed during the delay window. -/
def fsInput : Input :=
  { quietInput with b0 := true }

/-- A delay-window snapshot with a target button and the joystick switch
pressed in the same poll iteration. -/
def fsAndCancelInput : Input :=
  { quietInput with b0 := true, select := true }

/-- A concrete input trace from boot: move to the Rounds option, lower
`totalRounds` to 2, play a 2-round game to its Game-Over screen, return to
the menu, and lower `totalRounds` to 1.  The stale `currentRound = 2` of
the finished game then exceeds `totalRounds = 1`. -/
def ceInputs : List Input :=
  [ { quietInput with navReady := true, joyY := 1000 },
    { quietInput with navReady := true, joyX := 50 },
    { quietInput with navReady := true, joyX := 50 },
    { quietInput with navReady := true, joyX := 50 },
    { quietInput with navReady := true, joyX := 50 },
    { quietInput with navReady := true, joyX := 50 },
    { quietInput with navReady := true, joyX := 50 },
    { quietInput with navReady := true, joyX := 50 },
    { quietInput with navReady := true, joyX := 50 },
    { quietInput with select := true },
    { quietInput with delayElapsed := true },
    { quietInput with b0 := true, now := 100 },
    quietInput,
    { quietInput with delayElapsed := true },
    { quietInput with b0 := true, now := 100 },
    quietInput,
    { quietInput with select := true },
    { quietInput with navReady := true, joyY := 1000 },
    { quietInput with navReady := true, joyX := 50 } ]

/-!
## Helper lemmas
-/

theorem tick_menu (inp : Input) (s : Session) (h : s.gameState = GameState.menu) :
    tick inp s = handleMenu inp s := by
  unfold tick; rw [h]

theorem tick_enGarde (inp : Input) (s : Session) (h : s.gameState = GameState.enGarde) :
    tick inp s = enGardeTick inp s := by
  unfold tick; rw [h]

theorem tick_action (inp : Input) (s : Session) (h : s.gameState = GameState.action) :
    tick inp s = checkReflexes inp s := by
  unfold tick; rw [h]

theorem tick_result (inp : Input) (s : Session) (h : s.gameState = GameState.result) :
    tick inp s = resultTick s := by
  unfold tick; rw [h]

theorem tick_gameOver (inp : Input) (s : Session) (h : s.gameState = GameState.gameOver) :
    tick inp s = terminalTick inp s := by
  unfold tick; rw [h]

theorem tick_hallOfFame (inp : Input) (s : Session) (h : s.gameState = GameState.hallOfFame) :
    tick inp s = terminalTick inp s := by
  unfold tick; rw [h]

/-!
## C1 — correct-hit scoring
-/

/-- C1: for a correct hit, `processRoundResult` scores the round as
`hitScore` of the measured reaction time and adds it to the total;
`hitScore` is `1000 - reactionTime` for reactions up to 1000 ms, 0 above
1000 ms, never negative, and antitone in the reaction time (a faster
reaction never scores less). -/
theorem hitScore_correct (s : Session) (rt rt2 : Nat) :
    (processRoundResult true s).roundScore = hitScore s.reactionTime ∧
    (processRoundResult true s).totalGameScore = s.totalGameScore + hitScore s.reactionTime ∧
    (rt ≤ 1000 → hitScore rt = 1000 - (rt : Int)) ∧
    (1000 < rt → hitScore rt = 0) ∧
    0 ≤ hitScore rt ∧
    (rt ≤ rt2 → hitScore rt2 ≤ hitScore rt) := by
  refine ⟨rfl, rfl, ?_, ?_, ?_, ?_⟩
  · intro h
    rw [hitScore, if_neg (by omega)]
  · intro h
    rw [hitScore, if_pos (by omega)]
  · unfold hitScore
    split_ifs with h <;> omega
  · intro h
    unfold hitScore
    split_ifs <;> omega

/-- C1 witness: concrete evaluations of the correct-hit score. -/
theorem hitScore_correct_witness :
    hitScore 200 = 1000 - (200 : Int) ∧ hitScore 1500 = 0 ∧ hitScore 900 ≤ hitScore 300 :=
  ⟨(hitScore_correct initialSession 200 200).2.2.1 (by decide),
   (hitScore_correct initialSession 1500 1500).2.2.2.1 (by decide),
   (hitScore_correct initialSession 300 900).2.2.2.2.2 (by decide)⟩

/-!
## C6 — wrong-button penalty
-/

/-- C6: a wrong-button press in Await (scanned index differs from
`currentTarget`) scores exactly -200 whatever the reaction time: the
`processRoundResult(false)` path sets `roundScore = -200` and subtracts
200 from the total, and the scan step that processes such a press lands in
the Result state with that penalty. -/
theorem wrongPress_scores (s : Session) (i now : Nat)
    (h : (i == s.currentTarget) = false) :
    (processRoundResult false s).roundScore = -200 ∧
    (processRoundResult false s).totalGameScore = s.totalGameScore - 200 ∧
    (checkStep true i now s).roundScore = -200 ∧
    (checkStep true i now s).totalGameScore = s.totalGameScore - 200 ∧
    (checkStep true i now s).gameState = GameState.result := by
  unfold checkStep processRoundResult
  simp [h]
  omega

/-- C6 witness: pressing the left button while the right target is lit. -/
theorem wrongPress_scores_witness :
    (checkStep true 0 100 sampleAwait).roundScore = -200 :=
  (wrongPress_scores sampleAwait 0 100 (by decide)).2.2.1

/-!
## C3 — the En-Garde random delay range
-/

/-- C3 counterexample: 3000 ms lies in the interval the claim names, yet no
raw draw makes `drawDelay` produce it — Arduino `random(800, 3000)`
excludes its upper bound. -/
theorem drawDelay_never_3000 :
    800 ≤ 3000 ∧ 3000 ≤ 3000 ∧ ¬ ∃ r : Nat, drawDelay r = 3000 := by
  refine ⟨by norm_num, by norm_num, ?_⟩
  rintro ⟨r, hr⟩
  have h : r % 2200 < 2200 := Nat.mod_lt r (by norm_num)
  unfold drawDelay at hr
  omega

/-- C3 amended: the attainable delays are exactly the integers from 800
through 2999 milliseconds. -/
theorem drawDelay_range (v : Nat) :
    (∃ r : Nat, drawDelay r = v) ↔ 800 ≤ v ∧ v ≤ 2999 := by
  constructor
  · rintro ⟨r, rfl⟩
    have h : r % 2200 < 2200 := Nat.mod_lt r (by norm_num)
    unfold drawDelay
    omega
  · rintro ⟨h1, h2⟩
    refine ⟨v - 800, ?_⟩
    unfold drawDelay
    rw [Nat.mod_eq_of_lt (by omega)]
    omega

/-- C3 witness: 2999 is drawable. -/
theorem drawDelay_range_witness : ∃ r : Nat, drawDelay r = 2999 :=
  (drawDelay_range 2999).mpr ⟨by norm_num, by norm_num⟩

/-!
## C4 — false-start penalty
-/

/-- C4: a false start (any target button pressed during the En-Garde delay
window) subtracts exactly 500 from `totalGameScore`, leaves `currentRound`
unchanged, and leaves the machine in the Prepare state, so the same round
is retried. -/
theorem falseStart_penalty (inp : Input) (s : Session)
    (hs : s.gameState = GameState.enGarde)
    (hd : inp.delayElapsed = false)
    (hb : (inp.b0 || inp.b1 || inp.b2) = true) :
    (tick inp s).totalGameScore = s.totalGameScore - 500 ∧
    (tick inp s).currentRound = s.currentRound ∧
    (tick inp s).gameState = GameState.enGarde := by
  rw [tick_enGarde inp s hs]
  unfold enGardeTick
  rw [if_neg (by simp [hd]), if_pos hb]
  exact ⟨rfl, rfl, hs⟩

/-- C4 witness: a concrete false start in the delay window. -/
theorem falseStart_penalty_witness :
    (tick fsInput sampleEnGarde).totalGameScore = sampleEnGarde.totalGameScore - 500 :=
  (falseStart_penalty fsInput sampleEnGarde (by decide) (by decide) (by decide)).1

/-!
## C10 — false start wins over cancellation
-/

/-- C10: in one poll iteration of the delay loop the target buttons are
scanned before the joystick switch, so when a target button and the select
button are both pressed the tick applies the -500 false-start effect, the
machine stays out of the menu, and the cancellation flow is not taken. -/
theorem falseStart_precedes_cancel (inp : Input) (s : Session)
    (hs : s.gameState = GameState.enGarde)
    (hd : inp.delayElapsed = false)
    (hb : (inp.b0 || inp.b1 || inp.b2) = true)
    (_hsel : inp.select = true) :
    tick inp s = { s with totalGameScore := s.totalGameScore - 500 } ∧
    (tick inp s).gameState ≠ GameState.menu ∧
    tick inp s ≠ cancelGame s := by
  have h1 : tick inp s = { s with totalGameScore := s.totalGameScore - 500 } := by
    rw [tick_enGarde inp s hs]
    unfold enGardeTick
    rw [if_neg (by simp [hd]), if_pos hb]
  refine ⟨h1, ?_, ?_⟩
  · rw [h1]
    show s.gameState ≠ GameState.menu
    rw [hs]
    simp
  · rw [h1]
    intro hEq
    have h2 : s.gameState = GameState.menu := by
      have := congrArg Session.gameState hEq
      simpa [cancelGame] using this
    rw [hs] at h2
    exact GameState.noConfusion h2

/-- C10 witness: left button and joystick switch pressed together. -/
theorem falseStart_precedes_cancel_witness :
    tick fsAndCancelInput sampleEnGarde
      = { sampleEnGarde with totalGameScore := sampleEnGarde.totalGameScore - 500 } :=
  (falseStart_precedes_cancel fsAndCancelInput sampleEnGarde
    (by decide) (by decide) (by decide) (by decide)).1

/-!
## C5 — high-score lifecycle
-/

theorem le_finalizeHighScore (h a : Int) : h ≤ finalizeHighScore h a := by
  unfold finalizeHighScore
  split_ifs <;> omega

theorem foldl_finalize_ge (scores : List Int) :
    ∀ h : Int, h ≤ scores.foldl finalizeHighScore h := by
  induction scores with
  | nil => intro h; simp
  | cons a t ih => intro h; exact le_trans (le_finalizeHighScore h a) (ih _)

/-- C5: at game finalization the record path is taken iff the finished
total beats the stored high score, and only then is `highScore`
overwritten (with the total); otherwise it is untouched.  Hence the high
score never decreases, over one finalization or any sequence of them. -/
theorem highScore_monotone :
    (∀ s : Session, (gameOverRun s).2 = true ↔ s.totalGameScore > s.highScore) ∧
    (∀ s : Session, s.totalGameScore > s.highScore →
      (gameOver s).highScore = s.totalGameScore) ∧
    (∀ s : Session, ¬ s.totalGameScore > s.highScore →
      (gameOver s).highScore = s.highScore) ∧
    (∀ s : Session, s.highScore ≤ (gameOver s).highScore) ∧
    (∀ s : Session, (gameOver s).highScore = finalizeHighScore s.highScore s.totalGameScore) ∧
    (∀ (h : Int) (scores : List Int), h ≤ scores.foldl finalizeHighScore h) := by
  refine ⟨?_, ?_, ?_, ?_, ?_, fun h scores => foldl_finalize_ge scores h⟩
  · intro s
    unfold gameOverRun
    dsimp only
    split_ifs with hcond <;> simp [hcond]
  · intro s hgt
    unfold gameOver gameOverRun
    dsimp only
    rw [if_pos hgt]
  · intro s hgt
    unfold gameOver gameOverRun
    dsimp only
    rw [if_neg hgt]
  · intro s
    unfold gameOver gameOverRun
    dsimp only
    split_ifs with hcond <;> dsimp only <;> omega
  · intro s
    unfold gameOver gameOverRun finalizeHighScore
    dsimp only
    split_ifs with hcond <;> rfl

/-- C5 witness: an 850-point game beats the boot high score of 0 and is
recorded. -/
theorem highScore_monotone_witness :
    (gameOver sampleFinished).highScore = sampleFinished.totalGameScore :=
  highScore_monotone.2.1 sampleFinished (by decide)

/-!
## C7 — round-count clamping
-/

theorem roundAdjust_mem (t : Int) (a : Bool) (h1 : 1 ≤ t) (h2 : t ≤ 99) :
    1 ≤ applyRoundAdjust t a ∧ applyRoundAdjust t a ≤ 99 := by
  unfold applyRoundAdjust incRounds decRounds
  cases a <;> simp <;> split_ifs <;> omega

theorem foldl_roundAdjust_mem (acts : List Bool) :
    ∀ t : Int, 1 ≤ t → t ≤ 99 →
      1 ≤ acts.foldl applyRoundAdjust t ∧ acts.foldl applyRoundAdjust t ≤ 99 := by
  induction acts with
  | nil => intro t h1 h2; simpa using ⟨h1, h2⟩
  | cons a rest ih =>
    intro t h1 h2
    obtain ⟨g1, g2⟩ := roundAdjust_mem t a h1 h2
    simpa using ih (applyRoundAdjust t a) g1 g2

/-- C7: starting from any `totalRounds` in [1, 99], every sequence of menu
increments and decrements keeps it in [1, 99]; an increment at 99 stays at
99 and a decrement at 1 stays at 1, and the in-menu adjustment step
preserves the range. -/
theorem totalRounds_clamped (acts : List Bool) (t : Int)
    (h1 : 1 ≤ t) (h2 : t ≤ 99) :
    (1 ≤ acts.foldl applyRoundAdjust t ∧ acts.foldl applyRoundAdjust t ≤ 99) ∧
    incRounds 99 = 99 ∧ decRounds 1 = 1 ∧
    (∀ (joyX : Int) (s : Session), 1 ≤ s.totalRounds → s.totalRounds ≤ 99 →
      1 ≤ (adjustRounds joyX s).totalRounds ∧ (adjustRounds joyX s).totalRounds ≤ 99) := by
  refine ⟨foldl_roundAdjust_mem acts t h1 h2, by decide, by decide, ?_⟩
  intro joyX s g1 g2
  unfold adjustRounds incRounds decRounds
  split_ifs <;> (try simp) <;> omega

/-- C7 witness: incrementing at the cap leaves the count at 99. -/
theorem totalRounds_clamped_witness :
    1 ≤ List.foldl applyRoundAdjust 99 [true] ∧ List.foldl applyRoundAdjust 99 [true] ≤ 99 :=
  (totalRounds_clamped [true] 99 (by decide) (by decide)).1

/-!
## C2 — simultaneous presses in Await
-/

/-- C2 counterexample: with the right target lit and the left and center
buttons both pressed in one sampling tick, the scan loop (which has no
break) processes both presses, adding -400 to the total rather than the
-200 of the first scanned button alone. -/
theorem multiPress_not_single :
    (checkReflexes doublePressInput sampleAwait).totalGameScore = -400 ∧
    ¬ (checkReflexes doublePressInput sampleAwait).totalGameScore
        = sampleAwait.totalGameScore + pressScore 0 doublePressInput.now sampleAwait := by
  decide

/-- C2 amended: when at least one button reads pressed in an Await tick,
the buttons are scanned in order left, center, right and every pressed
button is processed — each one's score (`hitScore` of the measured reaction
for the target, -200 otherwise) is added to `totalGameScore` — and the tick
ends in the Result state. -/
theorem checkReflexes_processes_all (inp : Input) (s : Session)
    (h : (inp.b0 || inp.b1 || inp.b2) = true) :
    (checkReflexes inp s).gameState = GameState.result ∧
    (checkReflexes inp s).totalGameScore = s.totalGameScore
      + (if inp.b0 then pressScore 0 inp.now s else 0)
      + (if inp.b1 then pressScore 1 inp.now s else 0)
      + (if inp.b2 then pressScore 2 inp.now s else 0) := by
  cases hb0 : inp.b0 <;> cases hb1 : inp.b1 <;> cases hb2 : inp.b2 <;>
    simp_all [checkReflexes, checkStep, processRoundResult, pressScore]

/-- C2 amended witness: the double-press tick lands in Result. -/
theorem checkReflexes_processes_all_witness :
    (checkReflexes doublePressInput sampleAwait).gameState = GameState.result :=
  (checkReflexes_processes_all doublePressInput sampleAwait (by decide)).1

/-!
## C9 — output ordering around state changes
-/

/-- C9 counterexample: on the Prepare-to-Await transition the assignment
`gameState = 2` is the first event of the trace, so the target LED (index
2 in the trace) is lit after — not before — the state variable changes. -/
theorem goPhase_state_set_before_led :
    List.indexOf (Ev.setState GameState.action) (goPhaseTrace 0) = 0 ∧
    List.indexOf (Ev.ledOn 0) (goPhaseTrace 0) = 2 ∧
    ¬ List.indexOf (Ev.ledOn 0) (goPhaseTrace 0)
        < List.indexOf (Ev.setState GameState.action) (goPhaseTrace 0) := by
  decide

/-- C9 amended: in `processRoundResult` every LED/tone/display output of
the Await-to-Result transition happens before the state variable changes
(the `setState Result` event is last and appears nowhere earlier), whereas
on the Prepare-to-Await transition the state variable is set first, before
the target text, LED and go tone. -/
theorem transition_output_order (success : Bool) (rt t : Nat) :
    (goPhaseTrace t).head? = some (Ev.setState GameState.action) ∧
    Ev.ledOn t ∈ (goPhaseTrace t).tail ∧
    Ev.toneEv 1500 150 ∈ (goPhaseTrace t).tail ∧
    (processRoundResultTrace success rt).getLast? = some (Ev.setState GameState.result) ∧
    ∀ st : GameState, Ev.setState st ∉ (processRoundResultTrace success rt).dropLast := by
  refine ⟨rfl, by simp [goPhaseTrace], by simp [goPhaseTrace], ?_, ?_⟩ <;>
    unfold processRoundResultTrace <;> cases success <;> simp <;> split_ifs <;> simp

/-- C9 amended witness: the wrong-button result trace ends with the state
change. -/
theorem transition_output_order_witness :
    (processRoundResultTrace false 100).getLast? = some (Ev.setState GameState.result) :=
  (transition_output_order false 100 0).2.2.2.1

/-!
## C8 — round-counter invariant and end-of-game transitions
-/

theorem menuNav_fields (inp : Input) (s : Session) :
    (menuNav inp s).gameState = s.gameState ∧
    (menuNav inp s).currentRound = s.currentRound := by
  unfold menuNav adjustRounds navDown navUp
  split_ifs <;> simp

theorem menuNav_totalRounds_mem (inp : Input) (s : Session)
    (h1 : 1 ≤ s.totalRounds) (h2 : s.totalRounds ≤ 99) :
    1 ≤ (menuNav inp s).totalRounds ∧ (menuNav inp s).totalRounds ≤ 99 := by
  unfold menuNav adjustRounds navDown navUp incRounds decRounds
  split_ifs <;> (try dsimp only at *) <;> omega

theorem checkStep_counters (b : Bool) (i now : Nat) (s : Session) :
    (checkStep b i now s).totalRounds = s.totalRounds ∧
    (checkStep b i now s).currentRound = s.currentRound := by
  unfold checkStep processRoundResult
  cases b <;> simp

theorem handleMenu_inv (inp : Input) (s : Session)
    (hs : s.gameState = GameState.menu) (hInv : Inv s) : Inv (handleMenu inp s) := by
  obtain ⟨h1, h2, h3, h4⟩ := hInv
  obtain ⟨hg, hc⟩ := menuNav_fields inp s
  obtain ⟨hm1, hm2⟩ := menuNav_totalRounds_mem inp s h1 h2
  unfold handleMenu Inv
  dsimp only
  split_ifs <;>
    simp_all [startNewGame, showHighScore, inPlay, hs]

theorem enGardeTick_inv (inp : Input) (s : Session)
    (hs : s.gameState = GameState.enGarde) (hInv : Inv s) : Inv (enGardeTick inp s) := by
  obtain ⟨h1, h2, h3, h4⟩ := hInv
  have h5 : s.currentRound ≤ s.totalRounds := h4 (by rw [hs]; rfl)
  unfold enGardeTick cancelGame Inv
  split_ifs <;> simp_all [inPlay, hs]

theorem checkReflexes_inv (inp : Input) (s : Session)
    (hs : s.gameState = GameState.action) (hInv : Inv s) : Inv (checkReflexes inp s) := by
  obtain ⟨h1, h2, h3, h4⟩ := hInv
  have h5 : s.currentRound ≤ s.totalRounds := h4 (by rw [hs]; rfl)
  unfold checkReflexes
  obtain ⟨a1, a2⟩ := checkStep_counters inp.b0 0 inp.now s
  obtain ⟨b1, b2⟩ := checkStep_counters inp.b1 1 inp.now (checkStep inp.b0 0 inp.now s)
  obtain ⟨c1, c2⟩ := checkStep_counters inp.b2 2 inp.now
    (checkStep inp.b1 1 inp.now (checkStep inp.b0 0 inp.now s))
  refine ⟨?_, ?_, ?_, fun _ => ?_⟩ <;> omega

theorem resultTick_inv (s : Session)
    (hs : s.gameState = GameState.result) (hInv : Inv s) : Inv (resultTick s) := by
  obtain ⟨h1, h2, h3, h4⟩ := hInv
  have h5 : s.currentRound ≤ s.totalRounds := h4 (by rw [hs]; rfl)
  unfold resultTick gameOver gameOverRun Inv
  dsimp only
  split_ifs <;>
    exact ⟨by dsimp only; omega, by dsimp only; omega, by dsimp only; omega,
      fun _ => by dsimp only; omega⟩

theorem terminalTick_inv (inp : Input) (s : Session)
    (hInv : Inv s) : Inv (terminalTick inp s) := by
  obtain ⟨h1, h2, h3, h4⟩ := hInv
  unfold terminalTick Inv
  split_ifs <;> simp_all [inPlay]

/-- C8 amended: the boot state satisfies the session invariant and every
tick preserves it, so in every reachable state that is in play (`enGarde`,
`action`, `result`, `gameOver`) `currentRound` never exceeds `totalRounds`
(in Menu and Hall-of-Fame a stale counter of a finished game may exceed a
subsequently lowered `totalRounds`); in the Result state, when
`currentRound < totalRounds` the counter is incremented and the machine
returns to Prepare, otherwise the counter is left alone and the machine
enters GameOver, where it stays until a confirm press returns it to the
menu. -/
theorem tick_round_invariant :
    Inv initialSession ∧
    (∀ (inp : Input) (s : Session), Inv s → Inv (tick inp s)) ∧
    (∀ (inp : Input) (s : Session), s.gameState = GameState.result →
      (s.currentRound < s.totalRounds →
        (tick inp s).currentRound = s.currentRound + 1 ∧
        (tick inp s).gameState = GameState.enGarde) ∧
      (¬ s.currentRound < s.totalRounds →
        (tick inp s).currentRound = s.currentRound ∧
        (tick inp s).gameState = GameState.gameOver)) ∧
    (∀ (inp : Input) (s : Session), s.gameState = GameState.gameOver →
      ((inp.select || inp.b1) = true → (tick inp s).gameState = GameState.menu) ∧
      ((inp.select || inp.b1) = false → tick inp s = s)) := by
  refine ⟨⟨by decide, by decide, by decide, fun _ => by decide⟩, ?_, ?_, ?_⟩
  · intro inp s hInv
    cases hgs : s.gameState
    · rw [tick_menu inp s hgs]; exact handleMenu_inv inp s hgs hInv
    · rw [tick_enGarde inp s hgs]; exact enGardeTick_inv inp s hgs hInv
    · rw [tick_action inp s hgs]; exact checkReflexes_inv inp s hgs hInv
    · rw [tick_result inp s hgs]; exact resultTick_inv s hgs hInv
    · rw [tick_gameOver inp s hgs]; exact terminalTick_inv inp s hInv
    · rw [tick_hallOfFame inp s hgs]; exact terminalTick_inv inp s hInv
  · intro inp s hs
    rw [tick_result inp s hs]
    unfold resultTick gameOver gameOverRun
    constructor
    · intro hlt
      rw [if_pos hlt]
      exact ⟨rfl, rfl⟩
    · intro hge
      rw [if_neg hge]
      dsimp only
      split_ifs <;> exact ⟨rfl, rfl⟩
  · intro inp s hs
    rw [tick_gameOver inp s hs]
    unfold terminalTick
    constructor
    · intro hp
      rw [if_pos hp]
    · intro hp
      rw [if_neg (by simp [hp])]

/-- C8 amended witness: one quiet tick from boot keeps the invariant, and
a Result tick with rounds remaining advances the round into Prepare. -/
theorem tick_round_invariant_witness :
    Inv (tick quietInput initialSession) ∧
    (tick quietInput sampleResult).currentRound = sampleResult.currentRound + 1 :=
  ⟨tick_round_invariant.2.1 quietInput initialSession
      ⟨by decide, by decide, by decide, fun _ => by decide⟩,
   ((tick_round_invariant.2.2.1 quietInput sampleResult (by decide)).1 (by decide)).1⟩

/-- C8 counterexample: a concrete input trace from boot — configure 2
rounds, finish a 2-round game, return to the menu, lower the round count
to 1 — reaches a state whose stale `currentRound = 2` exceeds
`totalRounds = 1`. -/
theorem stale_round_exceeds_totalRounds :
    (run ceInputs initialSession).currentRound = 2 ∧
    (run ceInputs initialSession).totalRounds = 1 ∧
    ¬ (run ceInputs initialSession).currentRound ≤ (run ceInputs initialSession).totalRounds := by
  decide

end ReflexMaster
